import Mathlib

/-!
Shallow embedding of `src/utils/timer.py` (Pilomar project): the `ProgressTimer`
progress/ETA estimator and the `Timer` recurring wall-clock timer.

Modelling conventions:
* wall-clock instants and durations are rationals (seconds); the system clock
  `now_utc()` becomes an explicit `now : ℚ` argument to every method that
  reads the clock;
* Python object mutation becomes explicit state passing: methods that mutate
  return a new record (paired with the Python return value where there is one);
* Python's `ZeroDivisionError` is an explicit `Except` error value;
* Python's `round(x, 0)` (round half to even) is `round_half_even`.
-/

namespace Pilomar

/-- Python error surfaced by arithmetic in `ProgressTimer`. -/
inductive PyError where
  | zeroDivision
deriving Repr, DecidableEq

/-- State of `ProgressTimer`: `name`, `start` (value meaning 0%),
`current` (current value), `target` (value meaning 100%) and the UTC
construction instant `start_time`. -/
structure ProgressTimer where
  name : String
  start : ℤ
  current : ℤ
  target : ℤ
  start_time : ℚ
deriving Repr, DecidableEq

/-- Constructor of `ProgressTimer`: `current` is `initial` when given, else
`start`; `start_time` is the construction instant `now`. -/
def ProgressTimer.init (name : String) (target : ℤ) (start : ℤ)
    (initial : Option ℤ) (now : ℚ) : ProgressTimer :=
  { name := name
    start := start
    current := match initial with
      | some i => i
      | none => start
    target := target
    start_time := now }

/-- Method `update_count`: set `current` to `count`. -/
def ProgressTimer.update_count (p : ProgressTimer) (count : ℤ) : ProgressTimer :=
  { p with current := count }

/-- Method `get_percent`: `100 * (current - start) / (target - start)`;
Python raises `ZeroDivisionError` when the divisor is zero. -/
def ProgressTimer.get_percent (p : ProgressTimer) : Except PyError ℚ :=
  if ((p.target - p.start : ℤ) : ℚ) = 0 then Except.error PyError.zeroDivision
  else Except.ok (100 * ((p.current - p.start : ℤ) : ℚ) / ((p.target - p.start : ℤ) : ℚ))

/-- Method `get_total_seconds`: when progress has begun
(`current - start ≠ 0`), extrapolate `(now - start_time) * 100 / get_percent()`
(a zero divisor would raise); otherwise 0. -/
def ProgressTimer.get_total_seconds (p : ProgressTimer) (now : ℚ) : Except PyError ℚ :=
  if ((p.current - p.start : ℤ) : ℚ) ≠ 0 then
    match p.get_percent with
    | Except.error e => Except.error e
    | Except.ok pct =>
        if pct = 0 then Except.error PyError.zeroDivision
        else Except.ok ((now - p.start_time) * 100 / pct)
  else Except.ok 0

/-- Method `get_eta`: `start_time + get_total_seconds()` when that is nonzero,
else `start_time`. -/
def ProgressTimer.get_eta (p : ProgressTimer) (now : ℚ) : Except PyError ℚ :=
  match p.get_total_seconds now with
  | Except.error e => Except.error e
  | Except.ok temp =>
      if temp ≠ 0 then Except.ok (p.start_time + temp) else Except.ok p.start_time

/-- State of `Timer`: interval length `period` (integer seconds), absolute due
instant `next_trigger`, the skip policy `skip_events` and the manual override
flag `force_trigger`. -/
structure Timer where
  period : ℤ
  next_trigger : ℚ
  skip_events : Bool
  force_trigger : Bool
deriving Repr, DecidableEq

/-- Constructor of `Timer` at clock instant `now`: clamp `period` below 1 to 1;
`next_trigger` is `now + period` when `offset = 0`, else `now + offset`;
`force_trigger` starts false. -/
def Timer.init (period : ℤ) (offset : ℤ) (skip : Bool) (now : ℚ) : Timer :=
  { period := if period < 1 then 1 else period
    next_trigger :=
      if offset = 0 then now + ((if period < 1 then 1 else period : ℤ) : ℚ)
      else now + (offset : ℚ)
    skip_events := skip
    force_trigger := false }

/-- The `while self.next_trigger <= self.now_utc()` loop of
`set_next_trigger`: repeatedly add `period` until `next_trigger` exceeds `now`.
The extra conjunct `0 < period` is a totality guard only: every reachable
`Timer` has `period ≥ 1` (the constructor clamps and nothing changes it), and
under that invariant the guard is always true and this is exactly the source
loop. -/
def catch_up (period : ℤ) (now : ℚ) (nt : ℚ) : ℚ :=
  if _h : nt ≤ now ∧ 0 < period then catch_up period now (nt + (period : ℚ))
  else nt
termination_by (⌈now - nt⌉ + 1).toNat
decreasing_by
  have h1 : (0 : ℤ) ≤ ⌈now - nt⌉ := Int.ceil_nonneg (by linarith [_h.1])
  have h2 : now - (nt + (period : ℚ)) = (now - nt) - (period : ℚ) := by ring
  rw [h2, Int.ceil_sub_int]
  omega

/-- Method `set_next_trigger`: with `skip_events` run the catch-up loop, else
add exactly one `period`; clear `force_trigger` in both cases. -/
def Timer.set_next_trigger (t : Timer) (now : ℚ) : Timer :=
  if t.skip_events then
    { t with next_trigger := catch_up t.period now t.next_trigger
             force_trigger := false }
  else
    { t with next_trigger := t.next_trigger + (t.period : ℚ)
             force_trigger := false }

/-- Method `elapsed`: seconds since the start of the current interval,
`now - (next_trigger - period)`. -/
def Timer.elapsed (t : Timer) (now : ℚ) : ℚ :=
  now - (t.next_trigger - (t.period : ℚ))

/-- Python's `round(x, 0)`: round half to even (banker's rounding), on exact
rationals. -/
def round_half_even (q : ℚ) : ℤ :=
  if q - (⌊q⌋ : ℚ) < 1 / 2 then ⌊q⌋
  else if (1 : ℚ) / 2 < q - (⌊q⌋ : ℚ) then ⌊q⌋ + 1
  else if 2 ∣ ⌊q⌋ then ⌊q⌋ else ⌊q⌋ + 1

/-- Method `elapsed_pc`: `round(100 * elapsed() / period, 0)`. -/
def Timer.elapsed_pc (t : Timer) (now : ℚ) : ℚ :=
  ((round_half_even (100 * t.elapsed now / (t.period : ℚ))) : ℚ)

/-- Method `remaining`: `next_trigger - now`, floored at 0. -/
def Timer.remaining (t : Timer) (now : ℚ) : ℚ :=
  if t.next_trigger - now < 0 then 0 else t.next_trigger - now

/-- Method `due`: fires (returns true and runs `set_next_trigger`) when
`next_trigger < now` or `force_trigger`; otherwise returns false with the
state unchanged. -/
def Timer.due (t : Timer) (now : ℚ) : Bool × Timer :=
  if t.next_trigger < now ∨ t.force_trigger = true then (true, t.set_next_trigger now)
  else (false, t)

/-- Method `restart`: abandon the countdown, set `next_trigger = now + period`,
clear `force_trigger`, return true. -/
def Timer.restart (t : Timer) (now : ℚ) : Bool × Timer :=
  (true, { t with next_trigger := now + (t.period : ℚ)
                  force_trigger := false })

/-- Method `trigger`: set `force_trigger`, return true. -/
def Timer.trigger (t : Timer) : Bool × Timer :=
  (true, { t with force_trigger := true })

/-- Method `wait`: repeatedly poll `due()` until it fires, sleeping in
between. The real-time sleep is modelled by an explicit trace of successive
clock readings, one per `due()` poll; `none` means the trace was exhausted
before the timer fired. -/
def Timer.wait (t : Timer) : List ℚ → Option (Bool × Timer)
  | [] => none
  | now :: rest =>
      let r := t.due now
      if r.1 then some (true, r.2) else r.2.wait rest

/-! Helper lemmas about the catch-up loop and `set_next_trigger`. -/

/-- Unfolding of the loop when the guard holds: one more iteration. -/
theorem catch_up_step (period : ℤ) (now nt : ℚ) (h1 : nt ≤ now) (h2 : 0 < period) :
    catch_up period now nt = catch_up period now (nt + (period : ℚ)) := by
  conv_lhs => rw [catch_up]
  exact dif_pos ⟨h1, h2⟩

/-- Unfolding of the loop when the guard fails: the loop exits. -/
theorem catch_up_stop (period : ℤ) (now nt : ℚ) (h1 : ¬(nt ≤ now ∧ 0 < period)) :
    catch_up period now nt = nt := by
  conv_lhs => rw [catch_up]
  exact dif_neg h1

/-- The catch-up loop never moves `next_trigger` backwards. -/
theorem catch_up_ge (period : ℤ) (now nt : ℚ) : nt ≤ catch_up period now nt := by
  by_cases h : nt ≤ now ∧ 0 < period
  · rw [catch_up_step period now nt h.1 h.2]
    have ih := catch_up_ge period now (nt + (period : ℚ))
    have hp : (0 : ℚ) ≤ (period : ℚ) := by exact_mod_cast h.2.le
    linarith
  · rw [catch_up_stop period now nt h]
termination_by (⌈now - nt⌉ + 1).toNat
decreasing_by
  have h1 : (0 : ℤ) ≤ ⌈now - nt⌉ := Int.ceil_nonneg (by linarith [h.1])
  have h2 : now - (nt + (period : ℚ)) = (now - nt) - (period : ℚ) := by ring
  rw [h2, Int.ceil_sub_int]
  omega

/-- With a positive period the catch-up loop exits strictly beyond `now`. -/
theorem catch_up_gt (period : ℤ) (now nt : ℚ) (h2 : 0 < period) :
    now < catch_up period now nt := by
  by_cases h : nt ≤ now
  · rw [catch_up_step period now nt h h2]
    exact catch_up_gt period now (nt + (period : ℚ)) h2
  · rw [catch_up_stop period now nt (by tauto)]
    linarith
termination_by (⌈now - nt⌉ + 1).toNat
decreasing_by
  have h1 : (0 : ℤ) ≤ ⌈now - nt⌉ := Int.ceil_nonneg (by linarith [h])
  have h2 : now - (nt + (period : ℚ)) = (now - nt) - (period : ℚ) := by ring
  rw [h2, Int.ceil_sub_int]
  omega

/-- The trigger-advance step clears `force_trigger`. -/
theorem set_next_trigger_force (t : Timer) (now : ℚ) :
    (t.set_next_trigger now).force_trigger = false := by
  unfold Timer.set_next_trigger
  by_cases hs : t.skip_events <;> simp [hs]

/-- The trigger-advance step does not change `period`. -/
theorem set_next_trigger_period (t : Timer) (now : ℚ) :
    (t.set_next_trigger now).period = t.period := by
  unfold Timer.set_next_trigger
  by_cases hs : t.skip_events <;> simp [hs]

/-- The trigger-advance step does not change `skip_events`. -/
theorem set_next_trigger_skip (t : Timer) (now : ℚ) :
    (t.set_next_trigger now).skip_events = t.skip_events := by
  unfold Timer.set_next_trigger
  by_cases hs : t.skip_events <;> simp [hs]

/-- With the `period ≥ 1` invariant, the trigger-advance step never moves
`next_trigger` backwards. -/
theorem set_next_trigger_nt_ge (t : Timer) (now : ℚ) (hp : 1 ≤ t.period) :
    t.next_trigger ≤ (t.set_next_trigger now).next_trigger := by
  unfold Timer.set_next_trigger
  by_cases hs : t.skip_events
  · simpa [hs] using catch_up_ge t.period now t.next_trigger
  · have hpq : (0 : ℚ) ≤ (t.period : ℚ) := by exact_mod_cast (by omega : (0:ℤ) ≤ t.period)
    simp [hs]
    linarith

/-- When `target ≠ start`, `get_percent` succeeds with the interpolation
ratio. -/
theorem get_percent_ok (p : ProgressTimer) (h : p.target ≠ p.start) :
    p.get_percent = Except.ok
      (100 * ((p.current - p.start : ℤ) : ℚ) / ((p.target - p.start : ℤ) : ℚ)) := by
  unfold ProgressTimer.get_percent
  rw [if_neg]
  simp only [Int.cast_eq_zero, sub_eq_zero]
  exact h

/-- Method `due` does not change `period`. -/
theorem due_period (t : Timer) (now : ℚ) : (t.due now).2.period = t.period := by
  unfold Timer.due
  by_cases hc : t.next_trigger < now ∨ t.force_trigger = true
  · simp [hc, set_next_trigger_period]
  · simp [hc]

/-- Method `wait` does not change `period`, whatever the clock trace. -/
theorem wait_period (clocks : List ℚ) (t : Timer) (r : Bool × Timer)
    (h : t.wait clocks = some r) : r.2.period = t.period := by
  induction clocks generalizing t with
  | nil => simp [Timer.wait] at h
  | cons now rest ih =>
      unfold Timer.wait at h
      by_cases hd : (t.due now).1 = true
      · simp only [hd, if_true] at h
        cases h
        simpa using due_period t now
      · simp only [hd] at h
        simp at h
        have := ih (t.due now).2 h
        rw [this, due_period]

/-- C1: `due()` returns true exactly when the clock is strictly past
`next_trigger` or `force_trigger` is set; a firing call applies the
trigger-advance rule — it clears `force_trigger` and never moves
`next_trigger` backwards, leaving `period` and `skip_events` unchanged — and
a non-firing call leaves the whole state unchanged. -/
theorem due_correct (t : Timer) (now : ℚ) (hp : 1 ≤ t.period) :
    ((t.due now).1 = true ↔ (t.next_trigger < now ∨ t.force_trigger = true)) ∧
    ((t.due now).1 = true →
      (t.due now).2 = t.set_next_trigger now ∧
      (t.due now).2.force_trigger = false ∧
      t.next_trigger ≤ (t.due now).2.next_trigger ∧
      (t.due now).2.period = t.period ∧
      (t.due now).2.skip_events = t.skip_events) ∧
    ((t.due now).1 = false → (t.due now).2 = t) := by
  by_cases hc : t.next_trigger < now ∨ t.force_trigger = true
  · have hfire : t.due now = (true, t.set_next_trigger now) := by
      unfold Timer.due
      exact if_pos hc
    rw [hfire]
    exact ⟨by simpa using hc,
      fun _ => ⟨rfl, set_next_trigger_force t now, set_next_trigger_nt_ge t now hp,
        set_next_trigger_period t now, set_next_trigger_skip t now⟩,
      by simp⟩
  · have hno : t.due now = (false, t) := by
      unfold Timer.due
      exact if_neg hc
    rw [hno]
    exact ⟨by simpa using hc, by simp, fun _ => rfl⟩

/-- Witness for C1 at `Timer ⟨5, 0, true, false⟩` polled at clock 1. -/
theorem due_correct_witness :
    ((Timer.mk 5 0 true false).due 1).1 = true :=
  (due_correct (Timer.mk 5 0 true false) 1 (by norm_num)).1.mpr (Or.inl (by norm_num))

/-- C3: with `skip_events = false`, a firing `due()` adds exactly one `period`
to `next_trigger` even if the result is still in the past; consequently when
more than two full periods separate `next_trigger`'s interval start from the
clock, two consecutive `due()` calls both return true. -/
theorem due_noskip_no_drop (t : Timer) (now : ℚ) (hs : t.skip_events = false) :
    ((t.due now).1 = true →
      (t.due now).2.next_trigger = t.next_trigger + (t.period : ℚ)) ∧
    (1 ≤ t.period → t.next_trigger + (t.period : ℚ) < now →
      (t.due now).1 = true ∧ (((t.due now).2).due now).1 = true) := by
  constructor
  · intro hfire
    unfold Timer.due at hfire ⊢
    by_cases hc : t.next_trigger < now ∨ t.force_trigger = true
    · simp only [if_pos hc]
      unfold Timer.set_next_trigger
      simp [hs]
    · simp [if_neg hc] at hfire
  · intro hp h2
    have hpq : (0 : ℚ) < (t.period : ℚ) := by exact_mod_cast (by omega : (0:ℤ) < t.period)
    have hlt : t.next_trigger < now := by linarith
    have hfire : (t.due now) = (true, t.set_next_trigger now) := by
      unfold Timer.due
      exact if_pos (Or.inl hlt)
    refine ⟨by rw [hfire], ?_⟩
    rw [hfire]
    show ((t.set_next_trigger now).due now).1 = true
    have hnt : (t.set_next_trigger now).next_trigger = t.next_trigger + (t.period : ℚ) := by
      unfold Timer.set_next_trigger
      simp [hs]
    unfold Timer.due
    rw [hnt, if_pos (Or.inl h2)]

/-- Witness for C3: a no-skip timer due at 5 polled twice at clock 12. -/
theorem due_noskip_no_drop_witness :
    ((Timer.mk 5 5 false false).due 12).1 = true ∧
    ((((Timer.mk 5 5 false false).due 12).2).due 12).1 = true :=
  (due_noskip_no_drop (Timer.mk 5 5 false false) 12 rfl).2 (by norm_num) (by norm_num)

/-- C4: `trigger()` returns true and sets `force_trigger`, changing nothing
else; an immediately following `due()` fires whatever the clock reads. -/
theorem trigger_then_due (t : Timer) (now : ℚ) :
    (t.trigger).1 = true ∧
    (t.trigger).2.force_trigger = true ∧
    (t.trigger).2.next_trigger = t.next_trigger ∧
    (t.trigger).2.period = t.period ∧
    (t.trigger).2.skip_events = t.skip_events ∧
    (((t.trigger).2).due now).1 = true := by
  refine ⟨rfl, rfl, rfl, rfl, rfl, ?_⟩
  unfold Timer.trigger Timer.due
  simp

/-- C10: a forced `due()` while `next_trigger` is still strictly in the
future fires and clears `force_trigger`; with `skip_events = true` the
catch-up loop runs zero iterations so `next_trigger` is unchanged, while with
`skip_events = false` it is pushed one further period into the future. -/
theorem forced_early_due (t : Timer) (now : ℚ)
    (hf : t.force_trigger = true) (hlt : now < t.next_trigger) :
    (t.due now).1 = true ∧
    (t.due now).2.force_trigger = false ∧
    (t.skip_events = true → (t.due now).2.next_trigger = t.next_trigger) ∧
    (t.skip_events = false →
      (t.due now).2.next_trigger = t.next_trigger + (t.period : ℚ)) := by
  have hfire : (t.due now) = (true, t.set_next_trigger now) := by
    unfold Timer.due
    exact if_pos (Or.inr hf)
  rw [hfire]
  refine ⟨rfl, set_next_trigger_force t now, ?_, ?_⟩
  · intro hs
    unfold Timer.set_next_trigger
    simp only [hs, if_true]
    exact catch_up_stop t.period now t.next_trigger (fun hc => absurd hc.1 (not_le.mpr hlt))
  · intro hs
    unfold Timer.set_next_trigger
    simp [hs]

/-- Witness for C10 at a skip-policy timer forced 8 seconds early. -/
theorem forced_early_due_witness :
    ((Timer.mk 5 10 true true).due 2).1 = true ∧
    ((Timer.mk 5 10 true true).due 2).2.next_trigger = (10 : ℚ) := by
  have h := forced_early_due (Timer.mk 5 10 true true) 2 rfl (by norm_num)
  exact ⟨h.1, h.2.2.1 rfl⟩

/-- C2 counterexample: a `Timer(period=5, skip=True)` built at clock 0 and
first polled at clock 12 fires, but sets `next_trigger` to 15 (the first
point of the original 5-second grid strictly after 12), not to
`now + 5 = 17` as the claim states. -/
theorem skip_collapse_counterexample :
    ((Timer.init 5 0 true 0).due 12).1 = true ∧
    ((Timer.init 5 0 true 0).due 12).2.next_trigger ≠ 12 + 5 := by
  have hinit : Timer.init 5 0 true 0 = Timer.mk 5 5 true false := by
    unfold Timer.init
    norm_num
  have hcu : catch_up 5 12 5 = 15 := by
    rw [catch_up_step 5 12 5 (by norm_num) (by norm_num)]
    norm_num
    rw [catch_up_step 5 12 10 (by norm_num) (by norm_num)]
    norm_num
    rw [catch_up_stop 5 12 15 (by norm_num)]
  have hdue : (Timer.init 5 0 true 0).due 12 = (true, Timer.mk 5 15 true false) := by
    rw [hinit]
    unfold Timer.due Timer.set_next_trigger
    norm_num [hcu]
  rw [hdue]
  norm_num

/-- C2 amended: the first `due()` at clock 12 fires and resets `next_trigger`
to 15 — the first point of the original schedule strictly after `now`, i.e.
`now + 3`, not `now + 5` — collapsing the 2 missed ticks into the single
firing: an immediate second `due()` returns false. -/
theorem skip_collapse_amended :
    ((Timer.init 5 0 true 0).due 12).1 = true ∧
    ((Timer.init 5 0 true 0).due 12).2.next_trigger = 15 ∧
    ((((Timer.init 5 0 true 0).due 12).2).due 12).1 = false := by
  have hinit : Timer.init 5 0 true 0 = Timer.mk 5 5 true false := by
    unfold Timer.init
    norm_num
  have hcu : catch_up 5 12 5 = 15 := by
    rw [catch_up_step 5 12 5 (by norm_num) (by norm_num)]
    norm_num
    rw [catch_up_step 5 12 10 (by norm_num) (by norm_num)]
    norm_num
    rw [catch_up_stop 5 12 15 (by norm_num)]
  have hdue : (Timer.init 5 0 true 0).due 12 = (true, Timer.mk 5 15 true false) := by
    rw [hinit]
    unfold Timer.due Timer.set_next_trigger
    norm_num [hcu]
  rw [hdue]
  refine ⟨rfl, rfl, ?_⟩
  unfold Timer.due
  norm_num

/-- C5: with `period ≥ 1`, a freshly constructed timer has
`next_trigger = construction clock + period` when `offset = 0` and
`construction clock + offset` otherwise, and `due()` polled before that many
seconds have elapsed returns false. -/
theorem init_due_false (p o : ℤ) (s : Bool) (c now : ℚ) (hp : 1 ≤ p)
    (hnow : now - c < (if o = 0 then (p : ℚ) else (o : ℚ))) :
    (Timer.init p o s c).next_trigger = c + (if o = 0 then (p : ℚ) else (o : ℚ)) ∧
    ((Timer.init p o s c).due now).1 = false := by
  have hclamp : ¬(p < 1) := by omega
  have hnt : (Timer.init p o s c).next_trigger
      = c + (if o = 0 then (p : ℚ) else (o : ℚ)) := by
    unfold Timer.init
    by_cases ho : o = 0 <;> simp [ho, hclamp]
  refine ⟨hnt, ?_⟩
  unfold Timer.due
  have hlt : ¬((Timer.init p o s c).next_trigger < now) := by
    rw [hnt]
    by_cases ho : o = 0
    · simp only [ho, if_pos] at hnow ⊢
      simp at hnow ⊢
      linarith
    · simp only [if_neg ho] at hnow ⊢
      linarith
  have hforce : (Timer.init p o s c).force_trigger = false := by
    unfold Timer.init
    rfl
  rw [if_neg]
  intro hor
  rcases hor with h | h
  · exact hlt h
  · rw [hforce] at h
    exact Bool.false_ne_true h

/-- Witness for C5: `Timer(period=5, offset=3)` built at clock 0, polled at
clock 2. -/
theorem init_due_false_witness :
    ((Timer.init 5 3 true 0).due 2).1 = false :=
  (init_due_false 5 3 true 0 2 (by norm_num) (by norm_num)).2

/-- C6 counterexample: for a timer with `period = 3` and `next_trigger = 10`,
polling `elapsed_pc()` at clock `10.01` gives `round(100.333...) = 100` even
though the clock does not equal `next_trigger`: `elapsed_pc() = 100` is not
equivalent to `now = next_trigger`. -/
theorem elapsed_pc_100_counterexample :
    (Timer.mk 3 10 true false).elapsed_pc (1001 / 100) = 100 ∧
    (1001 / 100 : ℚ) ≠ (Timer.mk 3 10 true false).next_trigger := by
  constructor
  · have harg : 100 * ((Timer.mk 3 10 true false).elapsed (1001 / 100))
        / (((Timer.mk 3 10 true false).period : ℤ) : ℚ) = 301 / 3 := by
      unfold Timer.elapsed
      norm_num
    have hf : ⌊(301 / 3 : ℚ)⌋ = 100 := by
      rw [Int.floor_eq_iff]
      constructor <;> norm_num
    unfold Timer.elapsed_pc
    rw [harg]
    unfold round_half_even
    rw [hf]
    norm_num
  · show (1001 / 100 : ℚ) ≠ 10
    norm_num

/-- C6 amended: `elapsed_pc()` is the half-to-even rounding of
`100 * elapsed() / period`, and it equals 100 whenever the clock equals
`next_trigger`; the converse fails (see the counterexample): rounding also
yields 100 for clocks close to `next_trigger`. -/
theorem elapsed_pc_amended (t : Timer) (now : ℚ) (hp : 1 ≤ t.period) :
    t.elapsed_pc now =
      ((round_half_even (100 * (now - (t.next_trigger - (t.period : ℚ)))
        / (t.period : ℚ))) : ℚ) ∧
    (now = t.next_trigger → t.elapsed_pc now = 100) := by
  refine ⟨rfl, ?_⟩
  intro hnow
  have hpq : (0 : ℚ) < (t.period : ℚ) := by exact_mod_cast (by omega : (0:ℤ) < t.period)
  have harg : 100 * (t.elapsed now) / (t.period : ℚ) = 100 := by
    unfold Timer.elapsed
    rw [hnow]
    field_simp
  unfold Timer.elapsed_pc
  rw [harg]
  have hf : ⌊(100 : ℚ)⌋ = 100 := by
    rw [Int.floor_eq_iff]
    norm_num
  unfold round_half_even
  rw [hf]
  norm_num

/-- Witness for C6 amended at a timer polled exactly at `next_trigger`. -/
theorem elapsed_pc_amended_witness :
    (Timer.mk 5 7 true false).elapsed_pc 7 = 100 :=
  (elapsed_pc_amended (Timer.mk 5 7 true false) 7 (by norm_num)).2 rfl

/-- C7: `get_percent()` fails with the division-by-zero error exactly when
`target = start`, and otherwise returns
`100 * (current - start) / (target - start)`; it is a pure read of the state
(the record is not changed — no updated state is produced). -/
theorem get_percent_error_iff (p : ProgressTimer) :
    (p.get_percent = Except.error PyError.zeroDivision ↔ p.target = p.start) ∧
    (p.target ≠ p.start →
      p.get_percent = Except.ok
        (100 * ((p.current - p.start : ℤ) : ℚ) / ((p.target - p.start : ℤ) : ℚ))) := by
  unfold ProgressTimer.get_percent
  by_cases h : p.target = p.start
  · have hz : ((p.target - p.start : ℤ) : ℚ) = 0 := by
      rw [h]
      simp
    rw [if_pos hz]
    exact ⟨⟨fun _ => h, fun _ => rfl⟩, fun hne => absurd h hne⟩
  · have hz : ¬(((p.target - p.start : ℤ) : ℚ) = 0) := by
      simp only [Int.cast_eq_zero, sub_eq_zero]
      exact h
    rw [if_neg hz]
    exact ⟨⟨fun hc => absurd hc (by simp), fun hc => absurd hc h⟩, fun _ => rfl⟩

/-- Witness for C7 at a degenerate `target = start` instance. -/
theorem get_percent_error_iff_witness :
    (ProgressTimer.mk ("n") 5 7 5 0).get_percent = Except.error PyError.zeroDivision :=
  (get_percent_error_iff (ProgressTimer.mk ("n") 5 7 5 0)).1.mpr rfl

/-- C8: `get_total_seconds()` returns 0 when `current = start`, and otherwise
(assuming `target ≠ start` so the percentage exists) returns the elapsed
seconds since `start_time` times 100 divided by `get_percent()`; in the
concrete scenario `start = 0, target = 100, current = 50` with 10 seconds
elapsed it returns exactly 20. -/
theorem get_total_seconds_spec (p : ProgressTimer) (now : ℚ) :
    (p.current = p.start → p.get_total_seconds now = Except.ok 0) ∧
    (p.current ≠ p.start → p.target ≠ p.start →
      p.get_total_seconds now = Except.ok ((now - p.start_time) * 100 /
        (100 * ((p.current - p.start : ℤ) : ℚ) / ((p.target - p.start : ℤ) : ℚ)))) ∧
    ((ProgressTimer.init ("n") 100 0 (some 50) 0).get_total_seconds 10
      = Except.ok 20) := by
  refine ⟨?_, ?_, ?_⟩
  · intro h
    unfold ProgressTimer.get_total_seconds
    rw [if_neg]
    simp [h]
  · intro hc ht
    have hcz : ¬(((p.current - p.start : ℤ) : ℚ) = 0) := by
      simp only [Int.cast_eq_zero, sub_eq_zero]
      exact hc
    have htz : ¬(((p.target - p.start : ℤ) : ℚ) = 0) := by
      simp only [Int.cast_eq_zero, sub_eq_zero]
      exact ht
    have hpct : p.get_percent = Except.ok
        (100 * ((p.current - p.start : ℤ) : ℚ) / ((p.target - p.start : ℤ) : ℚ)) :=
      get_percent_ok p ht
    have hpz : ¬(100 * ((p.current - p.start : ℤ) : ℚ)
        / ((p.target - p.start : ℤ) : ℚ) = 0) := by
      apply div_ne_zero _ htz
      intro hcon
      rcases mul_eq_zero.mp hcon with h100 | hcc
      · norm_num at h100
      · exact hcz hcc
    unfold ProgressTimer.get_total_seconds
    rw [if_pos hcz, hpct]
    show (if 100 * ((p.current - p.start : ℤ) : ℚ) / ((p.target - p.start : ℤ) : ℚ) = 0
        then Except.error PyError.zeroDivision
        else Except.ok ((now - p.start_time) * 100 /
          (100 * ((p.current - p.start : ℤ) : ℚ) / ((p.target - p.start : ℤ) : ℚ))))
      = Except.ok ((now - p.start_time) * 100 /
          (100 * ((p.current - p.start : ℤ) : ℚ) / ((p.target - p.start : ℤ) : ℚ)))
    rw [if_neg hpz]
  · have hini : ProgressTimer.init ("n") 100 0 (some 50) 0
        = ProgressTimer.mk ("n") 0 50 100 0 := rfl
    rw [hini]
    unfold ProgressTimer.get_total_seconds ProgressTimer.get_percent
    norm_num

/-- Witness for C8 at a timer with no progress yet. -/
theorem get_total_seconds_spec_witness :
    (ProgressTimer.mk ("n") 0 0 100 0).get_total_seconds 10 = Except.ok 0 :=
  (get_total_seconds_spec (ProgressTimer.mk ("n") 0 0 100 0) 10).1 rfl

/-- C9: the period invariant — the constructor clamps any `period < 1` to
exactly 1 (never failing), so every fresh timer has `period ≥ 1`, and none of
`due`, `restart`, `trigger`, `set_next_trigger` or `wait` ever changes
`period` (the remaining methods return plain numbers and touch no state). -/
theorem period_invariant (p o : ℤ) (s : Bool) (c : ℚ) (t : Timer) (now : ℚ)
    (clocks : List ℚ) :
    ((Timer.init p o s c).period = if p < 1 then 1 else p) ∧
    (1 ≤ (Timer.init p o s c).period) ∧
    ((t.due now).2.period = t.period) ∧
    ((t.restart now).2.period = t.period) ∧
    ((t.trigger).2.period = t.period) ∧
    ((t.set_next_trigger now).period = t.period) ∧
    ((t.wait clocks).elim t.period (fun r => r.2.period) = t.period) := by
  refine ⟨rfl, ?_, due_period t now, rfl, rfl, set_next_trigger_period t now, ?_⟩
  · unfold Timer.init
    by_cases hp : p < 1
    · simp [hp]
    · simp only [hp, if_false]
      omega
  · cases hw : t.wait clocks with
    | none => rfl
    | some r =>
        simpa using wait_period clocks t r hw

end Pilomar
